import Mathlib

/-!
Verification of the proto-trading-service specification against the source.

The embedding below translates, from the Go source, the parts of the program
the claims are about:

* the session-authentication middleware (`internal/middleware/auth.go`,
  latest revision): token extraction, the post-decode session checks of
  `AuthRequired`, and the `RoleRequired` gate;
* the market-data model and its binding validation (`internal/models`,
  handlers in `internal/handlers/market.go`): JSON create endpoints and the
  CSV upload pipeline;
* the storage write paths (`internal/services/market.go`,
  `internal/database/postgres.go`): the append path (`BulkCreate`, COPY) and
  the upsert path (`BulkCreateWithConflict`, batch inside a transaction)
  against the `market_data` table with its `UNIQUE(symbol, date, source)`
  constraint.

Go `float64` values are modelled as exact rationals, `time.Time` values as
integer timestamps, and `time.Time` calendar dates as year/month/day triples.
-/

namespace ProtoTrading

/-! ## Session validation (`internal/middleware/auth.go`) -/

/-- Outcome of the post-decode session checks in `AuthRequired`. -/
inductive AuthCheck where
  | inactive
  | expired
  | ok
deriving DecidableEq, Repr

/-- Timestamp of the Go zero `time.Time`, the value a `time.Time` struct field
holds when its JSON field is absent. -/
def zeroTime : Int := 0

/-- JSON decoding of the optional `expires_at` body field into the
`KratosSession.ExpiresAt` field (a plain `time.Time`): an absent field leaves
the Go zero value. -/
def decodeExpiresAt : Option Int → Int
  | some t => t
  | none => zeroTime

/-- The two post-decode checks of `AuthRequired` (auth.go): `!session.Active`
rejects as inactive first; then `time.Now().After(session.ExpiresAt)` — the
strict order `expiresAt < now` — rejects as expired; otherwise the request
proceeds. -/
def sessionChecks (active : Bool) (expiresAt now : Int) : AuthCheck :=
  if active = false then .inactive
  else if expiresAt < now then .expired
  else .ok

/-- The expiry condition as the claim states it: expired exactly when
`expiresAt` is present and `now` is not before it. -/
def claimExpiredCond (expiresAt : Option Int) (now : Int) : Prop :=
  ∃ t, expiresAt = some t ∧ t ≤ now

/-! ## Token extraction (`extractSessionToken`, auth.go) -/

/-- The credential sources of one inbound request, as read by
`extractSessionToken`: `cookie` is the result of
`c.Cookie("ory_kratos_session")` (`none` models the error return for a
missing cookie), `authHeader` and `xSessionToken` are the corresponding
header values with `""` meaning absent. -/
structure RequestCreds where
  cookie : Option String
  authHeader : String
  xSessionToken : String

/-- Steps 2 and 3 of `extractSessionToken`: the `Authorization` header with a
`Bearer ` or `Session ` prefix (`strings.TrimPrefix` drops the matched
prefix), then the `X-Session-Token` header, else `""`. -/
def extractHeaderToken (r : RequestCreds) : String :=
  if r.authHeader ≠ "" ∧ "Bearer ".isPrefixOf r.authHeader then
    r.authHeader.drop 7
  else if r.authHeader ≠ "" ∧ "Session ".isPrefixOf r.authHeader then
    r.authHeader.drop 8
  else if r.xSessionToken ≠ "" then
    r.xSessionToken
  else ""

/-- Function `extractSessionToken` (auth.go, latest revision): the cookie is
consulted first (`err == nil && cookie != ""`), then the headers. -/
def extractSessionToken (r : RequestCreds) : String :=
  match r.cookie with
  | some c => if c ≠ "" then c else extractHeaderToken r
  | none => extractHeaderToken r

/-! ## Role gate (`RoleRequired`, auth.go) -/

/-- One value of the untyped `map[string]interface{}` traits map: a JSON
string or any non-string value. -/
inductive TraitVal where
  | str : String → TraitVal
  | other : TraitVal
deriving DecidableEq, Repr

/-- Lookup in the traits map. -/
def lookupTrait : List (String × TraitVal) → String → Option TraitVal
  | [], _ => none
  | (k, v) :: rest, key => if k = key then some v else lookupTrait rest key

/-- Role extraction inside `RoleRequired`: the type assertion
`traitsMap["role"].(string)` succeeds only on a string value; otherwise the
default role `"trader"` is used. -/
def roleFromTraits (tm : List (String × TraitVal)) : String :=
  match lookupTrait tm "role" with
  | some (.str s) => s
  | _ => "trader"

/-- Outcome of the `RoleRequired` middleware: pass through, a 403 with no
user context, or a 403 disclosing the required and actual roles. -/
inductive RoleGate where
  | allowed
  | deniedNoContext
  | denied : String → String → RoleGate
deriving DecidableEq, Repr

/-- Middleware `RoleRequired` (auth.go): missing or ill-typed `user_traits`
is a 403 without role disclosure; otherwise the extracted role must equal the
required role exactly, and a mismatch is a 403 carrying `required_role` and
`user_role`. -/
def RoleRequired (requiredRole : String) (traits : Option (List (String × TraitVal))) :
    RoleGate :=
  match traits with
  | none => .deniedNoContext
  | some tm =>
    let role := roleFromTraits tm
    if role ≠ requiredRole then .denied requiredRole role else .allowed

/-! ## Market-data model (`internal/models`, part_006) -/

/-- Calendar date (Go `time.Time` restricted to its date part). -/
structure PlainDate where
  year : Nat
  month : Nat
  day : Nat
deriving DecidableEq, Repr

/-- Date of the Go zero `time.Time`: 0001-01-01. -/
def zeroDate : PlainDate := ⟨1, 1, 1⟩

/-- Structure `models.MarketData` with the caller-supplied fields (field names
follow the Go struct; the store-assigned `ID` and `CreatedAt` are carried by
`StoredRow` below). Prices are `float64` in Go, modelled as exact rationals. -/
structure MarketData where
  Symbol : String
  Date : PlainDate
  Open : Rat
  High : Rat
  Low : Rat
  Close : Rat
  Volume : Int
  Source : String
deriving DecidableEq, Repr

/-- Modelled from the spec: the gin binding validation driven by the tags on
`models.MarketData` (`binding:"required"`, `binding:"required,min=0"`,
`binding:"required,oneof=yahoo mirae manual"`), with the go-playground
validator semantics — `required` fails on a field holding its type's zero
value (`""`, the zero time, the number `0`), `min=0` fails on a negative
number, `oneof` fails on a string outside the listed set. -/
def validBinding (d : MarketData) : Prop :=
  d.Symbol ≠ "" ∧ d.Date ≠ zeroDate ∧
  (d.Open ≠ 0 ∧ 0 ≤ d.Open) ∧ (d.High ≠ 0 ∧ 0 ≤ d.High) ∧
  (d.Low ≠ 0 ∧ 0 ≤ d.Low) ∧ (d.Close ≠ 0 ∧ 0 ≤ d.Close) ∧
  (d.Volume ≠ 0 ∧ 0 ≤ d.Volume) ∧
  (d.Source = "yahoo" ∨ d.Source = "mirae" ∨ d.Source = "manual")

instance : DecidablePred validBinding := fun d => by
  unfold validBinding; infer_instance

/-- Non-negativity of the numeric fields, the invariant the specification
states for every record handed to a storage write. -/
def nonnegFields (d : MarketData) : Prop :=
  0 ≤ d.Open ∧ 0 ≤ d.High ∧ 0 ≤ d.Low ∧ 0 ≤ d.Close ∧ 0 ≤ d.Volume

instance : DecidablePred nonnegFields := fun d => by
  unfold nonnegFields; infer_instance

/-! ## CSV parsing helpers (`UploadCSV`, handlers/market.go, part_007) -/

/-- Numeric value of a list of digit characters read left to right. -/
def digitsToNat (cs : List Char) : Nat :=
  cs.foldl (fun a c => a * 10 + (c.toNat - '0'.toNat)) 0

/-- Gregorian leap-year rule, as applied by Go's `time` package. -/
def isLeapYear (y : Nat) : Bool :=
  (y % 4 == 0 && y % 100 != 0) || y % 400 == 0

/-- Number of days of a month, as validated by Go's `time.Parse`. -/
def daysInMonth (y m : Nat) : Nat :=
  if m = 2 then (if isLeapYear y then 29 else 28)
  else if m = 4 ∨ m = 6 ∨ m = 9 ∨ m = 11 then 30
  else 31

/-- Modelled from Go `time.Parse("2006-01-02", s)` as used by `UploadCSV`:
the input must be exactly `YYYY-MM-DD` with a valid calendar month and day;
any other shape is a parse error. -/
def parseDate (s : String) : Option PlainDate :=
  match s.data with
  | [y1, y2, y3, y4, '-', m1, m2, '-', d1, d2] =>
    if [y1, y2, y3, y4, m1, m2, d1, d2].all Char.isDigit then
      let y := digitsToNat [y1, y2, y3, y4]
      let m := digitsToNat [m1, m2]
      let d := digitsToNat [d1, d2]
      if 1 ≤ m ∧ m ≤ 12 ∧ 1 ≤ d ∧ d ≤ daysInMonth y m then some ⟨y, m, d⟩
      else none
    else none
  | _ => none

/-- Unsigned decimal literal: digits with an optional single decimal point
(either side of the point may be empty, but not both). -/
def parseUnsignedDecimal (cs : List Char) : Option Rat :=
  match cs.span (fun c => c ≠ '.') with
  | (ip, []) =>
    if ip ≠ [] ∧ ip.all Char.isDigit then some (digitsToNat ip : Rat)
    else none
  | (ip, _ :: fp) =>
    if (ip ≠ [] ∨ fp ≠ []) ∧ ip.all Char.isDigit ∧ fp.all Char.isDigit then
      some ((digitsToNat ip : Rat) + (digitsToNat fp : Rat) / ((10 : Rat) ^ fp.length))
    else none

/-- Modelled from Go `strconv.ParseFloat(s, 64)` on plain decimal literals
(the only shapes the CSV columns carry): an optional sign followed by an
unsigned decimal; anything else is a parse error. -/
def parseDecimal (s : String) : Option Rat :=
  match s.data with
  | '-' :: rest => (parseUnsignedDecimal rest).map (fun q => -q)
  | '+' :: rest => parseUnsignedDecimal rest
  | cs => parseUnsignedDecimal cs

/-- Modelled from Go `strconv.ParseInt(s, 10, 64)`: an optional sign followed
by at least one digit; anything else is a parse error. -/
def parseIntStr (s : String) : Option Int :=
  match s.data with
  | '-' :: rest =>
    if rest ≠ [] ∧ rest.all Char.isDigit then some (-(digitsToNat rest : Int))
    else none
  | '+' :: rest =>
    if rest ≠ [] ∧ rest.all Char.isDigit then some (digitsToNat rest : Int)
    else none
  | cs =>
    if cs ≠ [] ∧ cs.all Char.isDigit then some (digitsToNat cs : Int)
    else none

/-- The value `open, _ := strconv.ParseFloat(...)` leaves in the Go variable:
the parsed number, or `0` when the ignored error is non-nil. -/
def coerceFloat (s : String) : Rat := (parseDecimal s).getD 0

/-- The value `volume, _ := strconv.ParseInt(...)` leaves in the Go variable:
the parsed number, or `0` when the ignored error is non-nil. -/
def coerceInt (s : String) : Int := (parseIntStr s).getD 0

/-! ## CSV row processing (`UploadCSV`, part_007) -/

/-- Skip reason `fmt.Sprintf("Row %d: insufficient columns", i+2)`. -/
def insufficientColumnsMsg (n : Nat) : String :=
  "Row " ++ toString n ++ ": insufficient columns"

/-- Skip reason `fmt.Sprintf("Row %d: invalid date format", i+2)`. -/
def invalidDateMsg (n : Nat) : String :=
  "Row " ++ toString n ++ ": invalid date format"

/-- One iteration of the row loop in `UploadCSV`: the column count is checked
first, then the date is parsed; on success the numeric columns are coerced
(parse errors ignored, leaving `0`) and the record is built with
`Source = "mirae"`. `lineNo` is the number the code prints, `i+2` for the
data row at index `i`. -/
def parseCSVRecord (lineNo : Nat) (r : List String) : Except String MarketData :=
  if r.length < 7 then .error (insufficientColumnsMsg lineNo)
  else
    match parseDate (r.getD 1 "") with
    | none => .error (invalidDateMsg lineNo)
    | some d =>
      .ok { Symbol := r.getD 0 "", Date := d,
            Open := coerceFloat (r.getD 2 ""), High := coerceFloat (r.getD 3 ""),
            Low := coerceFloat (r.getD 4 ""), Close := coerceFloat (r.getD 5 ""),
            Volume := coerceInt (r.getD 6 ""), Source := "mirae" }

/-- The row loop of `UploadCSV` over the data rows, with `i` the index of the
first row of the list within the data rows: accepted records and skip reasons
are collected in row order, and a skipped row never stops the loop. -/
def processFrom : Nat → List (List String) → List MarketData × List String
  | _, [] => ([], [])
  | i, r :: rest =>
    let p := processFrom (i + 1) rest
    match parseCSVRecord (i + 2) r with
    | .ok md => (md :: p.1, p.2)
    | .error e => (p.1, e :: p.2)

/-- Processing of a parsed CSV file: the header row is skipped
(`records[1:]`) and the data rows run through the row loop. -/
def processRecords (records : List (List String)) : List MarketData × List String :=
  processFrom 0 (records.drop 1)

/-- Response body `models.CSVUploadResponse`. -/
structure CSVUploadResponse where
  RowsImported : Nat
  RowsSkipped : Nat
  Errors : List String
deriving DecidableEq, Repr

/-- Observable outcome of `UploadCSV`: a 400, or a 200 carrying the list of
records handed to the upsert write together with the response body. -/
inductive UploadResult where
  | badRequest : UploadResult
  | accepted : List MarketData → CSVUploadResponse → UploadResult
deriving DecidableEq, Repr

/-- Handler `UploadCSV` (part_007) after CSV parsing: fewer than two records
is a 400; otherwise the data rows are processed, the accepted records are
handed to `BulkCreateWithConflict`, and the response reports
`RowsImported = len(marketData)`,
`RowsSkipped = len(records) - 1 - len(marketData)` and the skip reasons. -/
def UploadCSV (records : List (List String)) : UploadResult :=
  if records.length < 2 then .badRequest
  else
    let p := processRecords records
    .accepted p.1 ⟨p.1.length, records.length - 1 - p.1.length, p.2⟩

/-! ## JSON create handlers (part_007) -/

/-- Observable outcome of a JSON create handler up to the storage boundary:
a 400 from binding, or the list of records handed to the storage write. -/
inductive HandlerResult where
  | badRequest : HandlerResult
  | stored : List MarketData → HandlerResult
deriving DecidableEq, Repr

/-- Handler `CreateMarketData`: `ShouldBindJSON` validates the record against
its binding tags; a violation is a 400 before any storage call, otherwise the
record goes to `MarketService.Create`. -/
def CreateMarketData (d : MarketData) : HandlerResult :=
  if validBinding d then .stored [d] else .badRequest

/-- Handler `BulkCreateMarketData`: the `binding:"required,dive"` tag on
`BulkCreateRequest.Data` rejects an empty list and validates every element
against the record's tags; a violation is a 400 before any storage call,
otherwise the whole list goes to `BulkCreateWithConflict`. -/
def BulkCreateMarketData (ds : List MarketData) : HandlerResult :=
  if ds ≠ [] ∧ ∀ d ∈ ds, validBinding d then .stored ds else .badRequest

/-! ## The `market_data` store (part_001, services/market.go, postgres.go) -/

/-- One row of the `market_data` table: the record fields plus the
store-assigned `id` (from the `BIGSERIAL` sequence) and `created_at`. -/
structure StoredRow where
  id : Nat
  Symbol : String
  Date : PlainDate
  Open : Rat
  High : Rat
  Low : Rat
  Close : Rat
  Volume : Int
  Source : String
  createdAt : Int
deriving DecidableEq, Repr

/-- Natural key of a candidate record: `(symbol, date, source)`. -/
def MarketData.key (d : MarketData) : String × PlainDate × String :=
  (d.Symbol, d.Date, d.Source)

/-- Natural key of a stored row: `(symbol, date, source)`. -/
def StoredRow.key (r : StoredRow) : String × PlainDate × String :=
  (r.Symbol, r.Date, r.Source)

/-- State of the `market_data` table: its rows and the next value of the id
sequence. -/
structure Store where
  rows : List StoredRow
  nextId : Nat
deriving DecidableEq, Repr

/-- The freshly created table: no rows, sequence at 1. -/
def emptyStore : Store := ⟨[], 1⟩

/-- The row a plain `INSERT` produces from a candidate record: the record's
fields with the next sequence id and `created_at` set to the insertion time. -/
def mkRow (i : Nat) (d : MarketData) (now : Int) : StoredRow :=
  ⟨i, d.Symbol, d.Date, d.Open, d.High, d.Low, d.Close, d.Volume, d.Source, now⟩

/-- The `DO UPDATE SET` clause of the upsert statement in
`BulkCreateWithConflict`: on a key match only `open, high, low, close,
volume` are overwritten with the incoming (`EXCLUDED`) values; every other
column — in particular `id` and `created_at` — keeps its stored value. -/
def overwriteNumeric (d : MarketData) (r : StoredRow) : StoredRow :=
  if r.key = d.key then
    { r with Open := d.Open, High := d.High, Low := d.Low,
             Close := d.Close, Volume := d.Volume }
  else r

/-- The row-level effect of one upsert statement
(`INSERT ... ON CONFLICT (symbol, date, source) DO UPDATE SET ...`,
services/market.go): with a conflicting stored row the update clause runs,
otherwise a new row is appended with a fresh id and `created_at = now`. -/
def upsertRow (now : Int) (st : Store) (d : MarketData) : Store :=
  if st.rows.any (fun r => decide (r.key = d.key)) then
    { st with rows := st.rows.map (overwriteNumeric d) }
  else
    { rows := st.rows ++ [mkRow st.nextId d now], nextId := st.nextId + 1 }

/-- The success-path semantics of the statement loop in
`BulkCreateWithConflict`: the queued upsert statements apply in submission
order. -/
def applyBatch (now : Int) (st : Store) (ds : List MarketData) : Store :=
  ds.foldl (upsertRow now) st

/-- Helper `database.Transaction` (postgres.go): the callback runs against
the store; on success the transaction commits the resulting state, on error
it rolls back, leaving the store unchanged and propagating the error. -/
def Transaction (fn : Store → Except String Store) (st : Store) :
    Store × Option String :=
  match fn st with
  | .ok st2 => (st2, none)
  | .error e => (st, some e)

/-- The statement loop of `BulkCreateWithConflict` (market.go): statements
execute in order against the transaction's state; the first failing
`br.Exec` aborts the loop with an error naming the batch index. `exec`
abstracts the database's execution of one upsert statement, which may fail
for reasons outside the pure model (e.g. a constraint violation unrelated to
the natural key). -/
def execBatch (exec : Store → MarketData → Except String Store) :
    Nat → Store → List MarketData → Except String Store
  | _, st, [] => .ok st
  | i, st, d :: rest =>
    match exec st d with
    | .ok st2 => execBatch exec (i + 1) st2 rest
    | .error e =>
      .error ("failed to execute batch item " ++ toString i ++ ": " ++ e)

/-- Service method `BulkCreateWithConflict` (market.go): an empty batch
returns at once; otherwise the whole statement loop runs inside
`Transaction`. -/
def BulkCreateWithConflict (exec : Store → MarketData → Except String Store)
    (st : Store) (ds : List MarketData) : Store × Option String :=
  if ds = [] then (st, none)
  else Transaction (fun s => execBatch exec 0 s ds) st

/-- The database's execution of one upsert statement on the success path:
the pure row-level upsert, never failing. -/
def upsertExec (now : Int) : Store → MarketData → Except String Store :=
  fun st d => .ok (upsertRow now st d)

/-- An execution in which the first statement fails for a reason unrelated
to the natural key. -/
def failingExec : Store → MarketData → Except String Store :=
  fun _ _ => .error "null value in column violates not-null constraint"

/-- Modelled from the Postgres COPY semantics used by `BulkCreate`
(services/market.go) with the `UNIQUE(symbol, date, source)` constraint
(part_001): the rows are staged in order and each incoming key must collide
neither with an existing row nor with an already-staged one; the first
collision fails the whole command. -/
def copyRows (now : Int) : Store → List MarketData → Except String Store
  | st, [] => .ok st
  | st, d :: rest =>
    if st.rows.any (fun r => decide (r.key = d.key)) then
      .error "duplicate key value violates unique constraint"
    else
      copyRows now ⟨st.rows ++ [mkRow st.nextId d now], st.nextId + 1⟩ rest

/-- Service method `BulkCreate` (market.go), the append path: an empty batch
returns at once; otherwise all rows go through one COPY — a single statement,
so on failure nothing is persisted and the one error is reported. -/
def BulkCreate (now : Int) (st : Store) (ds : List MarketData) :
    Store × Option String :=
  if ds = [] then (st, none)
  else
    match copyRows now st ds with
    | .ok st2 => (st2, none)
    | .error e => (st, some e)

/-! ## Auxiliary definitions for the statements -/

/-- The skip reason a data row produces under `parseCSVRecord`, if any. -/
def rowError (n : Nat) (r : List String) : Option String :=
  match parseCSVRecord n r with
  | .ok _ => none
  | .error e => some e

/-- The rows a run of plain inserts appends: one `mkRow` per record, with
consecutive sequence ids starting at `i`. -/
def insertedFrom (now : Int) : Nat → List MarketData → List StoredRow
  | _, [] => []
  | i, d :: rest => mkRow i d now :: insertedFrom now (i + 1) rest

/-- A stored row carries exactly the numeric field values of a record. -/
def rowMatches (r : StoredRow) (d : MarketData) : Prop :=
  r.Open = d.Open ∧ r.High = d.High ∧ r.Low = d.Low ∧
  r.Close = d.Close ∧ r.Volume = d.Volume

/-- A batch violates the `UNIQUE(symbol, date, source)` constraint on a
store: some record's key collides with a stored row, or two records of the
batch share a key. -/
def keyViolation (st : Store) (ds : List MarketData) : Prop :=
  (∃ d ∈ ds, ∃ r ∈ st.rows, r.key = d.key) ∨
  ¬ ds.Pairwise (fun a b => a.key ≠ b.key)

/-- A concrete valid record, used to exercise the write paths. -/
def dupRecord : MarketData :=
  ⟨"BBCA", ⟨2024, 1, 15⟩, 8500, 8600, 8400, 8550, 100, "yahoo"⟩

/-! ## Theorems -/

/-- C1, counterexample: a decoded session with `active = true` and no
`expiresAt` field is rejected as `Expired` at `now = 1` (the absent field
decodes to the zero time and `time.Now().After` holds), although the claim's
expiry condition — `expiresAt` present and `now` not before it — is false
there. -/
theorem c1_counterexample :
    sessionChecks true (decodeExpiresAt none) 1 = AuthCheck.expired ∧
    ¬ claimExpiredCond none 1 := by
  constructor
  · rfl
  · rintro ⟨t, ht, -⟩
    exact Option.noConfusion ht

/-- C1, amended: the validator yields `Inactive` whenever `active` is false,
regardless of `expiresAt`; otherwise it yields `Expired` exactly when `now`
is strictly after the decoded `expiresAt`, where an absent `expiresAt`
decodes to the zero time — so a session without `expiresAt` is rejected as
expired whenever `now` is after the zero time, and a session is accepted at
the instant `now = expiresAt`. -/
theorem c1_session_checks (active : Bool) (e? : Option Int) (now : Int) :
    (sessionChecks active (decodeExpiresAt e?) now = AuthCheck.inactive ↔
      active = false) ∧
    (active = true →
      (sessionChecks active (decodeExpiresAt e?) now = AuthCheck.expired ↔
        decodeExpiresAt e? < now)) := by
  unfold sessionChecks
  cases active with
  | false => simp
  | true =>
    refine ⟨?_, fun _ => ?_⟩ <;> by_cases h : decodeExpiresAt e? < now <;> simp [h]

/-- C1, witness for the amended theorem: a session expiring at time 5 is
rejected as expired at `now = 6`. -/
theorem c1_witness :
    sessionChecks true (decodeExpiresAt (some 5)) 6 = AuthCheck.expired :=
  ((c1_session_checks true (some 5) 6).2 rfl).mpr (by decide)

/-- C2: `extractSessionToken` returns the first credential in the fixed
order — non-empty session cookie, then the `Authorization` header with a
`Bearer ` prefix, then with a `Session ` prefix, then the non-empty
`X-Session-Token` header — and the empty string when none match. -/
theorem c2_token_priority (r : RequestCreds) :
    (∀ c, r.cookie = some c → c ≠ "" → extractSessionToken r = c) ∧
    ((r.cookie = none ∨ r.cookie = some "") →
      "Bearer ".isPrefixOf r.authHeader →
      extractSessionToken r = r.authHeader.drop 7) ∧
    ((r.cookie = none ∨ r.cookie = some "") →
      ¬ "Bearer ".isPrefixOf r.authHeader →
      "Session ".isPrefixOf r.authHeader →
      extractSessionToken r = r.authHeader.drop 8) ∧
    ((r.cookie = none ∨ r.cookie = some "") →
      ¬ "Bearer ".isPrefixOf r.authHeader →
      ¬ "Session ".isPrefixOf r.authHeader → r.xSessionToken ≠ "" →
      extractSessionToken r = r.xSessionToken) ∧
    ((r.cookie = none ∨ r.cookie = some "") →
      ¬ "Bearer ".isPrefixOf r.authHeader →
      ¬ "Session ".isPrefixOf r.authHeader → r.xSessionToken = "" →
      extractSessionToken r = "") := by
  have hneB : ∀ h : String, "Bearer ".isPrefixOf h = true → h ≠ "" := by
    intro h hp he
    subst he
    exact absurd hp (by decide)
  have hneS : ∀ h : String, "Session ".isPrefixOf h = true → h ≠ "" := by
    intro h hp he
    subst he
    exact absurd hp (by decide)
  refine ⟨?_, ?_, ?_, ?_, ?_⟩
  · intro c hc hcne
    simp [extractSessionToken, hc, hcne]
  · rintro (hc | hc) hB <;>
      simp [extractSessionToken, extractHeaderToken, hc, hB, hneB _ hB]
  · rintro (hc | hc) hB hS <;>
      simp [extractSessionToken, extractHeaderToken, hc, hB, hS, hneS _ hS]
  · rintro (hc | hc) hB hS hx <;>
      simp [extractSessionToken, extractHeaderToken, hc, hB, hS, hx]
  · rintro (hc | hc) hB hS hx <;>
      simp [extractSessionToken, extractHeaderToken, hc, hB, hS, hx]

/-- C2, witness: a request presenting a cookie, a bearer header and the
custom header at once yields the cookie's value. -/
theorem c2_witness :
    extractSessionToken ⟨some "ck", "Bearer bt", "xt"⟩ = "ck" :=
  (c2_token_priority ⟨some "ck", "Bearer bt", "xt"⟩).1 "ck" rfl (by decide)

/-- C9: the role gate extracts `role` from the traits, treating an absent
value or one that is not a string as the default role `"trader"`; access is
allowed exactly when the resulting role equals the required role, and a
mismatch yields a 403 disclosing both the required and the user's role. -/
theorem c9_role_gate (req : String) (tm : List (String × TraitVal)) :
    (lookupTrait tm "role" = none → roleFromTraits tm = "trader") ∧
    (lookupTrait tm "role" = some TraitVal.other → roleFromTraits tm = "trader") ∧
    (RoleRequired req (some tm) = RoleGate.allowed ↔ roleFromTraits tm = req) ∧
    (roleFromTraits tm ≠ req →
      RoleRequired req (some tm) = RoleGate.denied req (roleFromTraits tm)) := by
  refine ⟨?_, ?_, ?_, ?_⟩
  · intro h
    simp [roleFromTraits, h]
  · intro h
    simp [roleFromTraits, h]
  · by_cases h : roleFromTraits tm = req <;> simp [RoleRequired, h]
  · intro h
    simp [RoleRequired, h]

/-- C9, witness: a session whose traits carry `role = "viewer"` hitting an
`admin`-required route receives the 403 disclosing
`required_role = "admin", user_role = "viewer"`. -/
theorem c9_witness :
    RoleRequired "admin" (some [("role", TraitVal.str "viewer")]) =
      RoleGate.denied "admin" "viewer" :=
  (c9_role_gate "admin" [("role", TraitVal.str "viewer")]).2.2.2 (by decide)

/-- A record that passes the binding validation has non-negative numeric
fields (the `min=0` halves of the tags). -/
theorem validBinding_nonneg {d : MarketData} (h : validBinding d) :
    nonnegFields d := by
  obtain ⟨-, -, ⟨-, h1⟩, ⟨-, h2⟩, ⟨-, h3⟩, ⟨-, h4⟩, ⟨-, h5⟩, -⟩ := h
  exact ⟨h1, h2, h3, h4, h5⟩

/-- C10: a JSON record in which `open`, `high`, `low`, `close` or `volume`
equals exactly 0 fails the `required` half of its binding tag, so both the
single-create and the bulk-create endpoint answer 400 before any storage
call. -/
theorem c10_zero_is_rejected (d : MarketData)
    (h : d.Open = 0 ∨ d.High = 0 ∨ d.Low = 0 ∨ d.Close = 0 ∨ d.Volume = 0) :
    CreateMarketData d = HandlerResult.badRequest ∧
    ∀ ds, d ∈ ds → BulkCreateMarketData ds = HandlerResult.badRequest := by
  have hnv : ¬ validBinding d := by
    intro hv
    obtain ⟨-, -, ⟨o1, -⟩, ⟨o2, -⟩, ⟨o3, -⟩, ⟨o4, -⟩, ⟨o5, -⟩, -⟩ := hv
    rcases h with h | h | h | h | h
    · exact o1 h
    · exact o2 h
    · exact o3 h
    · exact o4 h
    · exact o5 h
  constructor
  · simp [CreateMarketData, hnv]
  · intro ds hd
    have hna : ¬ (ds ≠ [] ∧ ∀ x ∈ ds, validBinding x) := by
      rintro ⟨-, hall⟩
      exact hnv (hall d hd)
    simp only [BulkCreateMarketData, if_neg hna]

/-- C10, witness: a record with `open = 0` and all other fields valid is
rejected by both JSON endpoints. -/
theorem c10_witness :
    CreateMarketData ⟨"BBCA", ⟨2025, 1, 7⟩, 0, 8600, 8450, 8550, 12500000, "yahoo"⟩ =
      HandlerResult.badRequest ∧
    BulkCreateMarketData
      [⟨"BBCA", ⟨2025, 1, 7⟩, 0, 8600, 8450, 8550, 12500000, "yahoo"⟩] =
      HandlerResult.badRequest :=
  ⟨(c10_zero_is_rejected
      ⟨"BBCA", ⟨2025, 1, 7⟩, 0, 8600, 8450, 8550, 12500000, "yahoo"⟩
      (Or.inl (by decide))).1,
   (c10_zero_is_rejected
      ⟨"BBCA", ⟨2025, 1, 7⟩, 0, 8600, 8450, 8550, 12500000, "yahoo"⟩
      (Or.inl (by decide))).2 _ (by simp)⟩

/-- C6, counterexample: a CSV data row carrying the negative price `-5`
passes the upload pipeline unchecked — the record handed to the upsert write
has `Open = -5`, violating the claimed non-negativity of every record handed
to a storage write. -/
theorem c6_counterexample :
    UploadCSV [["Symbol", "Date", "Open", "High", "Low", "Close", "Volume"],
        ["BBCA", "2024-01-15", "-5", "8600", "8400", "8550", "100"]] =
      UploadResult.accepted
        [{ Symbol := "BBCA", Date := ⟨2024, 1, 15⟩, Open := -5, High := 8600,
           Low := 8400, Close := 8550, Volume := 100, Source := "mirae" }]
        ⟨1, 0, []⟩ ∧
    ¬ nonnegFields
        { Symbol := "BBCA", Date := ⟨2024, 1, 15⟩, Open := -5, High := 8600,
          Low := 8400, Close := 8550, Volume := 100, Source := "mirae" } := by
  constructor
  · rfl
  · decide

/-- C6, amended: on the JSON single- and bulk-create paths every record
handed to a storage write has passed the binding validation and therefore has
non-negative `open, high, low, close, volume`; the CSV upload path performs
no such check (its numeric-coercion errors are ignored), so the claim does
not extend to it. -/
theorem c6_nonneg_json_paths :
    (∀ d r, CreateMarketData d = HandlerResult.stored r →
      ∀ x ∈ r, nonnegFields x) ∧
    (∀ ds r, BulkCreateMarketData ds = HandlerResult.stored r →
      ∀ x ∈ r, nonnegFields x) := by
  constructor
  · intro d r hst x hx
    by_cases hv : validBinding d
    · simp only [CreateMarketData, if_pos hv, HandlerResult.stored.injEq] at hst
      subst hst
      simp only [List.mem_singleton] at hx
      subst hx
      exact validBinding_nonneg hv
    · simp [CreateMarketData, hv] at hst
  · intro ds r hst x hx
    by_cases hv : ds ≠ [] ∧ ∀ y ∈ ds, validBinding y
    · simp only [BulkCreateMarketData, if_pos hv, HandlerResult.stored.injEq] at hst
      subst hst
      exact validBinding_nonneg (hv.2 x hx)
    · simp [BulkCreateMarketData, hv] at hst

/-- C6, witness for the amended theorem: the single-create path stores a
valid record, and that stored record has non-negative fields. -/
theorem c6_witness :
    nonnegFields ⟨"BBCA", ⟨2025, 1, 7⟩, 8500, 8600, 8450, 8550, 12500000, "yahoo"⟩ :=
  c6_nonneg_json_paths.1
    ⟨"BBCA", ⟨2025, 1, 7⟩, 8500, 8600, 8450, 8550, 12500000, "yahoo"⟩
    [⟨"BBCA", ⟨2025, 1, 7⟩, 8500, 8600, 8450, 8550, 12500000, "yahoo"⟩]
    (by decide) _ (by simp)

/-- Every data row ends up either imported or skipped: the loop never aborts
the batch. -/
theorem processFrom_length (i : Nat) (rs : List (List String)) :
    ((processFrom i rs).1).length + ((processFrom i rs).2).length = rs.length := by
  induction rs generalizing i with
  | nil => simp [processFrom]
  | cons r rest ih =>
    have h := ih (i + 1)
    unfold processFrom
    cases hc : parseCSVRecord (i + 2) r <;> simp [hc] <;> omega

/-- The skip reasons are exactly the per-row errors, in row order, each
labelled with its row's loop counter plus two. -/
theorem processFrom_errors (i : Nat) (rs : List (List String)) :
    (processFrom i rs).2 =
      (rs.enumFrom i).filterMap (fun p => rowError (p.1 + 2) p.2) := by
  induction rs generalizing i with
  | nil => simp [processFrom]
  | cons r rest ih =>
    unfold processFrom
    cases hc : parseCSVRecord (i + 2) r <;>
      simp [List.enumFrom, List.filterMap_cons, rowError, hc, ih (i + 1)]

/-- C7, counterexample: a data row whose `Open` column fails numeric
coercion (`strconv.ParseFloat("abc", 64)` errors) is not skipped — it is
imported with `Open = 0` and no skip reason is recorded. -/
theorem c7_counterexample :
    parseDecimal "abc" = none ∧
    processRecords [["Symbol", "Date", "Open", "High", "Low", "Close", "Volume"],
        ["BBCA", "2024-01-15", "abc", "1", "2", "3", "100"]] =
      ([{ Symbol := "BBCA", Date := ⟨2024, 1, 15⟩, Open := 0, High := 1, Low := 2,
          Close := 3, Volume := 100, Source := "mirae" }], []) :=
  ⟨rfl, rfl⟩

/-- C7, amended: validation applies column-count presence first, then date
parsing in the fixed `YYYY-MM-DD` format, and a row failing either stage is
recorded as skipped with a human-readable reason while processing continues
with the next row; numeric coercion, however, cannot fail a row — parse
errors are ignored and the affected field is silently coerced to 0, the row
being imported. -/
theorem c7_csv_row_stages :
    (∀ n r, r.length < 7 →
      parseCSVRecord n r = Except.error (insufficientColumnsMsg n)) ∧
    (∀ n r, 7 ≤ r.length → parseDate (r.getD 1 "") = none →
      parseCSVRecord n r = Except.error (invalidDateMsg n)) ∧
    (∀ n r d, 7 ≤ r.length → parseDate (r.getD 1 "") = some d →
      parseCSVRecord n r = Except.ok
        { Symbol := r.getD 0 "", Date := d, Open := coerceFloat (r.getD 2 ""),
          High := coerceFloat (r.getD 3 ""), Low := coerceFloat (r.getD 4 ""),
          Close := coerceFloat (r.getD 5 ""), Volume := coerceInt (r.getD 6 ""),
          Source := "mirae" }) ∧
    (∀ i rs, ((processFrom i rs).1).length + ((processFrom i rs).2).length =
      rs.length) := by
  refine ⟨?_, ?_, ?_, processFrom_length⟩
  · intro n r h
    simp [parseCSVRecord, h]
  · intro n r h7 hd
    unfold parseCSVRecord
    rw [if_neg (Nat.not_lt.mpr h7), hd]
  · intro n r d h7 hd
    unfold parseCSVRecord
    rw [if_neg (Nat.not_lt.mpr h7), hd]

/-- C7, witness for the amended theorem: a short row and a bad-date row are
skipped with their reasons, and a two-row batch always accounts for both
rows. -/
theorem c7_witness :
    parseCSVRecord 2 ["BBCA"] = Except.error (insufficientColumnsMsg 2) ∧
    parseCSVRecord 3 ["BBCA", "bad-date", "1", "2", "3", "4", "5"] =
      Except.error (invalidDateMsg 3) ∧
    ((processFrom 0 [["BBCA"], ["X", "2024-01-15", "1", "2", "3", "4", "5"]]).1).length +
      ((processFrom 0 [["BBCA"], ["X", "2024-01-15", "1", "2", "3", "4", "5"]]).2).length
      = 2 :=
  ⟨c7_csv_row_stages.1 2 ["BBCA"] (by decide),
   c7_csv_row_stages.2.1 3 ["BBCA", "bad-date", "1", "2", "3", "4", "5"]
     (by decide) (by decide),
   c7_csv_row_stages.2.2.2 0 [["BBCA"], ["X", "2024-01-15", "1", "2", "3", "4", "5"]]⟩

/-- C8, counterexample: a file whose only data row is malformed yields the
skip reason "Row 2: insufficient columns" — the reason carries the file line
number, not the 1-based data-row number 1 the claim states (header excluded). -/
theorem c8_counterexample :
    UploadCSV [["Symbol", "Date", "Open", "High", "Low", "Close", "Volume"],
        ["BBCA"]] =
      UploadResult.accepted [] ⟨0, 1, [insufficientColumnsMsg 2]⟩ ∧
    insufficientColumnsMsg 2 ≠ insufficientColumnsMsg 1 :=
  ⟨rfl, by decide⟩

/-- C8, amended: for a parsed file with at least a header row, the response
reports `RowsImported` = number of rows that passed validation, `RowsSkipped`
= number of data rows that failed validation, and exactly one skip reason per
failed row, in row order, each referencing the failed row's file line number
(data row at 0-based index `i` is labelled `Row i+2`: the header row counts
in the numbering). -/
theorem c8_upload_response (records : List (List String)) (h : 2 ≤ records.length)
    (mds : List MarketData) (resp : CSVUploadResponse)
    (hres : UploadCSV records = UploadResult.accepted mds resp) :
    resp.RowsImported = mds.length ∧
    resp.RowsSkipped = resp.Errors.length ∧
    resp.RowsImported + resp.RowsSkipped = records.length - 1 ∧
    resp.Errors = ((records.drop 1).enum).filterMap
      (fun p => rowError (p.1 + 2) p.2) := by
  have hlt : ¬ records.length < 2 := Nat.not_lt.mpr h
  simp only [UploadCSV, if_neg hlt, UploadResult.accepted.injEq] at hres
  obtain ⟨h1, h2⟩ := hres
  subst h1
  subst h2
  have hlen := processFrom_length 0 (records.drop 1)
  have hdrop : (records.drop 1).length = records.length - 1 :=
    List.length_drop 1 records
  refine ⟨rfl, ?_, ?_, ?_⟩
  · show records.length - 1 - ((processFrom 0 (records.drop 1)).1).length =
      ((processFrom 0 (records.drop 1)).2).length
    omega
  · show ((processFrom 0 (records.drop 1)).1).length +
      (records.length - 1 - ((processFrom 0 (records.drop 1)).1).length) =
      records.length - 1
    omega
  · show (processFrom 0 (records.drop 1)).2 = _
    rw [processFrom_errors 0 (records.drop 1)]
    rfl

/-- C8, witness for the amended theorem: a file with one valid and one
bad-date data row reports one imported, one skipped, and the single reason
labelled with file line 3. -/
theorem c8_witness :
    (⟨1, 1, [invalidDateMsg 3]⟩ : CSVUploadResponse).RowsImported =
      [(⟨"X", ⟨2024, 1, 15⟩, 1, 2, 3, 4, 5, "mirae"⟩ : MarketData)].length ∧
    (⟨1, 1, [invalidDateMsg 3]⟩ : CSVUploadResponse).RowsSkipped =
      (⟨1, 1, [invalidDateMsg 3]⟩ : CSVUploadResponse).Errors.length ∧
    (⟨1, 1, [invalidDateMsg 3]⟩ : CSVUploadResponse).RowsImported +
      (⟨1, 1, [invalidDateMsg 3]⟩ : CSVUploadResponse).RowsSkipped =
      [["Symbol", "Date", "Open", "High", "Low", "Close", "Volume"],
        ["X", "2024-01-15", "1", "2", "3", "4", "5"],
        ["Y", "nope", "1", "2", "3", "4", "5"]].length - 1 ∧
    (⟨1, 1, [invalidDateMsg 3]⟩ : CSVUploadResponse).Errors =
      (([["Symbol", "Date", "Open", "High", "Low", "Close", "Volume"],
        ["X", "2024-01-15", "1", "2", "3", "4", "5"],
        ["Y", "nope", "1", "2", "3", "4", "5"]].drop 1).enum).filterMap
        (fun p => rowError (p.1 + 2) p.2) :=
  c8_upload_response
    [["Symbol", "Date", "Open", "High", "Low", "Close", "Volume"],
      ["X", "2024-01-15", "1", "2", "3", "4", "5"],
      ["Y", "nope", "1", "2", "3", "4", "5"]]
    (by decide) [⟨"X", ⟨2024, 1, 15⟩, 1, 2, 3, 4, 5, "mirae"⟩]
    ⟨1, 1, [invalidDateMsg 3]⟩ (by rfl)

/-- The key of a freshly inserted row is the record's key. -/
theorem mkRow_key (i : Nat) (d : MarketData) (now : Int) :
    (mkRow i d now).key = d.key := rfl

/-- A run of plain inserts appends one row per record. -/
theorem insertedFrom_length (now : Int) (i : Nat) (ds : List MarketData) :
    (insertedFrom now i ds).length = ds.length := by
  induction ds generalizing i with
  | nil => rfl
  | cons d rest ih => simp [insertedFrom, ih]

/-- Every row of a run of plain inserts carries the key and the numeric
values of one of the inserted records. -/
theorem mem_insertedFrom {now : Int} {i : Nat} {ds : List MarketData}
    {r : StoredRow} (h : r ∈ insertedFrom now i ds) :
    ∃ d ∈ ds, r.key = d.key ∧ rowMatches r d := by
  induction ds generalizing i with
  | nil => simp [insertedFrom] at h
  | cons d rest ih =>
    simp only [insertedFrom, List.mem_cons] at h
    rcases h with h | h
    · subst h
      exact ⟨d, by simp, rfl, rfl, rfl, rfl, rfl, rfl⟩
    · obtain ⟨d', hd', hk, hm⟩ := ih h
      exact ⟨d', by simp [hd'], hk, hm⟩

/-- Every inserted record has a row with its key in the run's output. -/
theorem exists_insertedFrom {now : Int} {ds : List MarketData} {d : MarketData}
    (h : d ∈ ds) (i : Nat) :
    ∃ r ∈ insertedFrom now i ds, r.key = d.key := by
  induction ds generalizing i with
  | nil => simp at h
  | cons a rest ih =>
    rcases List.mem_cons.mp h with h | h
    · subst h
      exact ⟨mkRow i d now, by simp [insertedFrom], rfl⟩
    · obtain ⟨r, hr, hk⟩ := ih h (i + 1)
      exact ⟨r, by simp [insertedFrom, hr], hk⟩

/-- Mapping a function that fixes every element of a list is the identity. -/
theorem list_map_fixed {α : Type} (l : List α) (f : α → α)
    (h : ∀ a ∈ l, f a = a) : l.map f = l := by
  induction l with
  | nil => rfl
  | cons a t ih =>
    simp only [List.map_cons, h a (by simp)]
    rw [ih (fun b hb => h b (by simp [hb]))]

/-- With pairwise-distinct keys that are all fresh for the store, the upsert
batch degenerates to a run of plain inserts. -/
theorem applyBatch_fresh (now : Int) (ds : List MarketData) :
    ∀ st : Store, ds.Pairwise (fun a b => a.key ≠ b.key) →
    (∀ d ∈ ds, ∀ r ∈ st.rows, r.key ≠ d.key) →
    applyBatch now st ds =
      ⟨st.rows ++ insertedFrom now st.nextId ds, st.nextId + ds.length⟩ := by
  induction ds with
  | nil =>
    intro st _ _
    show st = _
    cases st
    simp [insertedFrom]
  | cons d rest ih =>
    intro st hdist hfresh
    have hany : ¬ st.rows.any (fun r => decide (r.key = d.key)) = true := by
      rw [List.any_eq_true]
      rintro ⟨r, hr, hp⟩
      exact hfresh d (by simp) r hr (of_decide_eq_true hp)
    have hst1 : upsertRow now st d =
        ⟨st.rows ++ [mkRow st.nextId d now], st.nextId + 1⟩ := by
      unfold upsertRow
      rw [if_neg hany]
    have hhead := (List.pairwise_cons.mp hdist).1
    have htail := (List.pairwise_cons.mp hdist).2
    show applyBatch now (upsertRow now st d) rest = _
    rw [hst1,
      ih ⟨st.rows ++ [mkRow st.nextId d now], st.nextId + 1⟩ htail ?_]
    · simp only [Store.mk.injEq, List.append_assoc, List.singleton_append]
      constructor
      · rfl
      · simp only [List.length_cons]
        omega
    · intro d' hd' r hr
      rcases List.mem_append.mp hr with hr | hr
      · exact hfresh d' (by simp [hd']) r hr
      · have : r = mkRow st.nextId d now := by simpa using hr
        subst this
        rw [mkRow_key]
        exact hhead d' hd'

/-- When every record of the batch already has a row with its key holding
the same numeric values, the upsert batch is the identity on the store. -/
theorem applyBatch_absorb (now : Int) (ds : List MarketData) (st : Store)
    (hex : ∀ d ∈ ds, ∃ r ∈ st.rows, r.key = d.key)
    (hmatch : ∀ d ∈ ds, ∀ r ∈ st.rows, r.key = d.key → rowMatches r d) :
    applyBatch now st ds = st := by
  induction ds with
  | nil => rfl
  | cons d rest ih =>
    have hany : st.rows.any (fun r => decide (r.key = d.key)) = true := by
      rw [List.any_eq_true]
      obtain ⟨r, hr, hk⟩ := hex d (by simp)
      exact ⟨r, hr, decide_eq_true hk⟩
    have hmap : st.rows.map (overwriteNumeric d) = st.rows := by
      apply list_map_fixed
      intro r hr
      unfold overwriteNumeric
      by_cases hk : r.key = d.key
      · rw [if_pos hk]
        obtain ⟨h1, h2, h3, h4, h5⟩ := hmatch d (by simp) r hr hk
        cases r
        simp_all
      · rw [if_neg hk]
    have hst : upsertRow now st d = st := by
      unfold upsertRow
      rw [if_pos hany, hmap]
    show applyBatch now (upsertRow now st d) rest = st
    rw [hst]
    exact ih (fun d' hd' => hex d' (by simp [hd']))
      (fun d' hd' => hmatch d' (by simp [hd']))

/-- In a batch with pairwise-distinct keys, two records sharing a key are
the same record. -/
theorem key_unique {ds : List MarketData}
    (h : ds.Pairwise (fun a b => a.key ≠ b.key))
    {d d' : MarketData} (hd : d ∈ ds) (hd' : d' ∈ ds)
    (hk : d.key = d'.key) : d = d' := by
  induction ds with
  | nil => simp at hd
  | cons a t ih =>
    obtain ⟨ha, ht⟩ := List.pairwise_cons.mp h
    rcases List.mem_cons.mp hd with rfl | hd2 <;>
      rcases List.mem_cons.mp hd' with rfl | hd'2
    · rfl
    · exact absurd hk (ha d' hd'2)
    · exact absurd hk.symm (ha d hd2)
    · exact ih ht hd2 hd'2

/-- C3, counterexample: a batch of two identical valid rows (N = 2) applied
twice through the upsert path leaves one stored row, not N. -/
theorem c3_counterexample :
    [dupRecord, dupRecord].length = 2 ∧ validBinding dupRecord ∧
    (applyBatch 5 (applyBatch 3 emptyStore [dupRecord, dupRecord])
      [dupRecord, dupRecord]).rows.length = 1 := by
  refine ⟨rfl, by decide, by decide⟩

/-- C3, amended: on a key collision the upsert overwrites only
`open, high, low, close, volume` (so `id` and `created_at` are preserved),
a colliding batch row updates the stored rows in place, a non-colliding row
is inserted with a fresh id; and for a batch whose rows have pairwise
distinct `(symbol, date, source)` keys, applying the same batch twice from
the empty store leaves exactly N rows, each carrying the batch's field
values. -/
theorem c3_upsert_semantics (now : Int) :
    (∀ d r, r.key = d.key →
      overwriteNumeric d r =
        { r with Open := d.Open, High := d.High, Low := d.Low,
                 Close := d.Close, Volume := d.Volume }) ∧
    (∀ d r, (overwriteNumeric d r).id = r.id ∧
      (overwriteNumeric d r).createdAt = r.createdAt) ∧
    (∀ d r, r.key ≠ d.key → overwriteNumeric d r = r) ∧
    (∀ st d, (∀ r ∈ st.rows, r.key ≠ d.key) →
      upsertRow now st d =
        ⟨st.rows ++ [mkRow st.nextId d now], st.nextId + 1⟩) ∧
    (∀ st d r0, r0 ∈ st.rows → r0.key = d.key →
      upsertRow now st d = { st with rows := st.rows.map (overwriteNumeric d) }) ∧
    (∀ now2 ds, ds.Pairwise (fun a b => a.key ≠ b.key) →
      applyBatch now2 (applyBatch now emptyStore ds) ds =
        applyBatch now emptyStore ds ∧
      (applyBatch now emptyStore ds).rows.length = ds.length ∧
      ∀ r ∈ (applyBatch now emptyStore ds).rows,
        ∃ d ∈ ds, r.key = d.key ∧ rowMatches r d) := by
  refine ⟨?_, ?_, ?_, ?_, ?_, ?_⟩
  · intro d r hk
    unfold overwriteNumeric
    rw [if_pos hk]
  · intro d r
    unfold overwriteNumeric
    by_cases hk : r.key = d.key
    · rw [if_pos hk]
      exact ⟨rfl, rfl⟩
    · rw [if_neg hk]
      exact ⟨rfl, rfl⟩
  · intro d r hk
    unfold overwriteNumeric
    rw [if_neg hk]
  · intro st d hfresh
    unfold upsertRow
    rw [if_neg ?_]
    rw [List.any_eq_true]
    rintro ⟨r, hr, hp⟩
    exact hfresh r hr (of_decide_eq_true hp)
  · intro st d r0 hr0 hk
    unfold upsertRow
    rw [if_pos (List.any_eq_true.mpr ⟨r0, hr0, decide_eq_true hk⟩)]
  · intro now2 ds hdist
    have h1 := applyBatch_fresh now ds emptyStore hdist (by simp [emptyStore])
    have hrows : (applyBatch now emptyStore ds).rows = insertedFrom now 1 ds := by
      rw [h1]
      show emptyStore.rows ++ insertedFrom now emptyStore.nextId ds = _
      simp [emptyStore]
    refine ⟨?_, ?_, ?_⟩
    · apply applyBatch_absorb
      · intro d hd
        rw [hrows]
        exact exists_insertedFrom hd 1
      · intro d hd r hr hk
        rw [hrows] at hr
        obtain ⟨d', hd', hk', hm⟩ := mem_insertedFrom hr
        have hdd : d' = d := key_unique hdist hd' hd (hk'.symm.trans hk)
        exact hdd ▸ hm
    · rw [hrows, insertedFrom_length]
    · intro r hr
      rw [hrows] at hr
      exact mem_insertedFrom hr

/-- C3, witness for the amended theorem: a distinct-key batch of one valid
row applied twice leaves the store of the first application, with exactly
one row. -/
theorem c3_witness :
    applyBatch 7 (applyBatch 3 emptyStore [dupRecord]) [dupRecord] =
      applyBatch 3 emptyStore [dupRecord] ∧
    (applyBatch 3 emptyStore [dupRecord]).rows.length = 1 := by
  have h := (c3_upsert_semantics 3).2.2.2.2.2 7 [dupRecord] (by simp)
  exact ⟨h.1, h.2.1⟩

/-- C4: if any statement of the upsert batch fails, the surrounding
transaction rolls back — `BulkCreateWithConflict` leaves the store unchanged
and propagates the error; no subset of the batch's rows is committed. -/
theorem c4_tx_rollback (exec : Store → MarketData → Except String Store)
    (st : Store) (ds : List MarketData) (e : String)
    (h : execBatch exec 0 st ds = Except.error e) :
    BulkCreateWithConflict exec st ds = (st, some e) := by
  have hne : ds ≠ [] := by
    rintro rfl
    simp [execBatch] at h
  unfold BulkCreateWithConflict Transaction
  rw [if_neg hne]
  show (match execBatch exec 0 st ds with
    | Except.ok st2 => (st2, none)
    | Except.error e => (st, some e)) = (st, some e)
  rw [h]

/-- C4, witness: a batch whose first statement fails with an error unrelated
to the natural key commits nothing. -/
theorem c4_witness :
    BulkCreateWithConflict failingExec emptyStore [dupRecord] =
      (emptyStore,
        some ("failed to execute batch item 0: " ++
          "null value in column violates not-null constraint")) :=
  c4_tx_rollback failingExec emptyStore [dupRecord]
    ("failed to execute batch item 0: " ++
      "null value in column violates not-null constraint") (by rfl)

/-- A batch violating the unique constraint makes the COPY command fail. -/
theorem copyRows_error (now : Int) :
    ∀ (ds : List MarketData) (st : Store), keyViolation st ds →
      ∃ e, copyRows now st ds = Except.error e := by
  intro ds
  induction ds with
  | nil =>
    intro st h
    rcases h with ⟨d, hd, -⟩ | h
    · simp at hd
    · exact absurd List.Pairwise.nil h
  | cons d rest ih =>
    intro st h
    by_cases hc : st.rows.any (fun r => decide (r.key = d.key)) = true
    · exact ⟨_, by unfold copyRows; rw [if_pos hc]⟩
    · have hcf : ∀ r ∈ st.rows, r.key ≠ d.key := by
        intro r hr hk
        exact hc (List.any_eq_true.mpr ⟨r, hr, decide_eq_true hk⟩)
      have hviol :
          keyViolation ⟨st.rows ++ [mkRow st.nextId d now], st.nextId + 1⟩ rest := by
        rcases h with ⟨d', hd', r, hr, hk⟩ | hnp
        · rcases List.mem_cons.mp hd' with rfl | hd'2
          · exact absurd hk (hcf r hr)
          · exact Or.inl ⟨d', hd'2, r, by simp [hr], hk⟩
        · by_cases hp : rest.Pairwise (fun a b => a.key ≠ b.key)
          · have hne : ¬ ∀ b ∈ rest, d.key ≠ b.key := by
              intro hall
              exact hnp (List.pairwise_cons.mpr ⟨hall, hp⟩)
            push_neg at hne
            obtain ⟨b, hb, hkb⟩ := hne
            refine Or.inl ⟨b, hb, mkRow st.nextId d now, by simp, ?_⟩
            rw [mkRow_key]
            exact hkb
          · exact Or.inr hp
      obtain ⟨e, he⟩ := ih _ hviol
      refine ⟨e, ?_⟩
      unfold copyRows
      rw [if_neg hc]
      exact he

/-- C5: an append batch in which some row violates the
`(symbol, date, source)` unique constraint — against an existing row or an
earlier row of the same batch — persists zero rows and is reported as one
ingestion-level error. -/
theorem c5_append_atomicity (now : Int) (st : Store) (ds : List MarketData)
    (h : keyViolation st ds) :
    ∃ e, BulkCreate now st ds = (st, some e) := by
  have hne : ds ≠ [] := by
    rintro rfl
    rcases h with ⟨d, hd, -⟩ | h
    · simp at hd
    · exact h List.Pairwise.nil
  obtain ⟨e, he⟩ := copyRows_error now ds st h
  refine ⟨e, ?_⟩
  unfold BulkCreate
  rw [if_neg hne, he]

/-- C5, witness: an append batch repeating one key persists nothing and
yields a single error. -/
theorem c5_witness :
    ∃ e, BulkCreate 0 emptyStore [dupRecord, dupRecord] = (emptyStore, some e) :=
  c5_append_atomicity 0 emptyStore [dupRecord, dupRecord]
    (Or.inr (fun hp => (List.pairwise_cons.mp hp).1 dupRecord (by simp) rfl))

end ProtoTrading
